import Mathlib

/-!
Verification of the hunter-seeker job-application tracker.

This file gives a shallow embedding of the program's logic:
* a model of Go time.Parse restricted to the date layouts the program uses,
  and of the parseDate / parseCSVRecord / isHeaderRow / ProcessCSVHandler
  CSV-import pipeline (internal/handlers/handlers.go);
* a model of the SQLite-backed store operations
  (internal/database/database.go), with the table represented as a list of
  rows in insertion order, AUTOINCREMENT as a counter, and created_at as a
  strictly increasing logical clock.

Side conditions that cannot arise in the model (database I/O failures,
template rendering, HTTP plumbing) are not represented; comments note where
the source has such branches.
-/

set_option maxHeartbeats 1000000

namespace HunterSeeker

/-- Calendar date produced by the Go time-parsing model: year, month (1-12), day. -/
structure GoDate where
  year : Nat
  month : Nat
  day : Nat
deriving DecidableEq, Repr

/-- ASCII digit test, as Go isDigit in time/format.go. -/
def isDigitChar (c : Char) : Bool := decide (48 ≤ c.toNat ∧ c.toNat ≤ 57)

/-- Numeric value of an ASCII digit. -/
def digitVal (c : Char) : Nat := c.toNat - 48

/-- ASCII lower-casing of one character, written as the table it denotes:
Go strings.ToLower maps each of A-Z to the letter 32 code points higher and,
for the inputs that occur in this program, leaves everything else unchanged. -/
def lowerChar (c : Char) : Char :=
  match c with
  | 'A' => 'a' | 'B' => 'b' | 'C' => 'c' | 'D' => 'd' | 'E' => 'e' | 'F' => 'f'
  | 'G' => 'g' | 'H' => 'h' | 'I' => 'i' | 'J' => 'j' | 'K' => 'k' | 'L' => 'l'
  | 'M' => 'm' | 'N' => 'n' | 'O' => 'o' | 'P' => 'p' | 'Q' => 'q' | 'R' => 'r'
  | 'S' => 's' | 'T' => 't' | 'U' => 'u' | 'V' => 'v' | 'W' => 'w' | 'X' => 'x'
  | 'Y' => 'y' | 'Z' => 'z'
  | _ => c

/-- Lower-casing of a character list (strings.ToLower on the code points that occur here). -/
def lowerList (cs : List Char) : List Char := cs.map lowerChar

/-- Whitespace test of Go unicode.IsSpace, restricted to the code points Go
strips: ASCII space, tab, newline, vertical tab, form feed, carriage return,
NEL (U+0085) and NBSP (U+00A0). -/
def isSpaceChar (c : Char) : Bool :=
  c == ' ' || c == '\t' || c == '\n' || c.toNat == 11 || c.toNat == 12 || c == '\r' ||
    c.toNat == 133 || c.toNat == 160

/-- Model of strings.TrimSpace on a list of characters. -/
def trimList (cs : List Char) : List Char :=
  ((cs.dropWhile isSpaceChar).reverse.dropWhile isSpaceChar).reverse

/-- Model of strings.Contains: does the needle occur as a contiguous substring
of the haystack. -/
def containsList (hay needle : List Char) : Bool :=
  match hay with
  | [] => needle.isEmpty
  | c :: t => needle.isPrefixOf (c :: t) || containsList t needle

/-- Model of Go time.getnum: read a one- or two-digit number from the front of
the input; with fixed set, exactly two digits are required. -/
def getnum (fixed : Bool) : List Char → Option (Nat × List Char)
  | [] => none
  | [c] => if isDigitChar c && !fixed then some (digitVal c, []) else none
  | c1 :: c2 :: rest =>
    if isDigitChar c1 then
      if isDigitChar c2 then some (digitVal c1 * 10 + digitVal c2, rest)
      else if fixed then none
      else some (digitVal c1, c2 :: rest)
    else none

/-- Short month names of Go time, matched by the "Jan" layout element. -/
def shortMonthNames : List (List Char) :=
  ["Jan", "Feb", "Mar", "Apr", "May", "Jun",
   "Jul", "Aug", "Sep", "Oct", "Nov", "Dec"].map String.data

/-- Long month names of Go time, matched by the "January" layout element. -/
def longMonthNames : List (List Char) :=
  ["January", "February", "March", "April", "May", "June", "July",
   "August", "September", "October", "November", "December"].map String.data

/-- Model of the byte comparison in Go time.match: equal, or the same ASCII
letter up to case. -/
def foldEqChar (c1 c2 : Char) : Bool :=
  c1 == c2 ||
    (let l1 := c1.toNat ||| 32
     let l2 := c2.toNat ||| 32
     l1 == l2 && decide (97 ≤ l1 ∧ l1 ≤ 122))

/-- Match a table name case-insensitively against a front of the input,
returning the remainder on success (the per-name step of Go time.lookup). -/
def matchFold : List Char → List Char → Option (List Char)
  | [], v => some v
  | _ :: _, [] => none
  | n :: ns, c :: cs => if foldEqChar c n then matchFold ns cs else none

/-- Iteration of Go time.lookup over the table, tracking the 0-based index. -/
def lookupNameFrom (names : List (List Char)) (i : Nat) (v : List Char) :
    Option (Nat × List Char) :=
  match names with
  | [] => none
  | n :: rest =>
    match matchFold n v with
    | some r => some (i, r)
    | none => lookupNameFrom rest (i + 1) v

/-- Model of Go time.lookup: first table name matched case-insensitively by a
front of the input; returns its 0-based index and the remaining input. -/
def lookupName (names : List (List Char)) (v : List Char) : Option (Nat × List Char) :=
  lookupNameFrom names 0 v

/-- Layout elements of Go time layouts, restricted to those that occur in the
25 date layouts this program passes to time.Parse (plus literal characters). -/
inductive Chunk where
  | lit (c : Char)
  | longYear
  | numMonth
  | zeroMonth
  | numDay
  | zeroDay
  | monthName
  | longMonthName
deriving DecidableEq, Repr

/-- Does the list start with an ASCII lower-case letter (Go startsWithLowerCase). -/
def startsWithLowerCase (cs : List Char) : Bool :=
  match cs with
  | [] => false
  | c :: _ => decide (97 ≤ c.toNat ∧ c.toNat ≤ 122)

/-- Model of Go time.nextStdChunk iterated over a whole layout, restricted to
the layout elements reachable from this program's 25 date layouts:
"2006" (4-digit year), "01"/"1" (month), "02"/"2" (day), "Jan"/"January"
(month names), everything else literal.  Time-of-day elements ("15", "03",
"04", "05"), two-digit years ("06" directly after "0"), weekday names
("Mon"/"Monday") and zone names ("MST") appear in none of this program's
layouts, so the characters starting them are scanned the same way Go scans
them there: as literals or as the date elements above. -/
def scanLayout : List Char → List Chunk
  | [] => []
  | 'J' :: 'a' :: 'n' :: 'u' :: 'a' :: 'r' :: 'y' :: rest =>
    Chunk.longMonthName :: scanLayout rest
  | 'J' :: 'a' :: 'n' :: rest =>
    -- When "Jan" is followed by a lower-case letter Go treats the 'J' as
    -- literal text and rescans from the 'a'; as no layout element begins
    -- with 'a' or 'n', that rescan makes them literal too.
    if startsWithLowerCase rest then
      Chunk.lit 'J' :: Chunk.lit 'a' :: Chunk.lit 'n' :: scanLayout rest
    else Chunk.monthName :: scanLayout rest
  | '2' :: '0' :: '0' :: '6' :: rest => Chunk.longYear :: scanLayout rest
  | '2' :: rest => Chunk.numDay :: scanLayout rest
  | '1' :: rest => Chunk.numMonth :: scanLayout rest
  | '0' :: '1' :: rest => Chunk.zeroMonth :: scanLayout rest
  | '0' :: '2' :: rest => Chunk.zeroDay :: scanLayout rest
  | c :: rest => Chunk.lit c :: scanLayout rest

/-- Partial parse state of Go time.parse: year defaults to 0; month and day
are none until seen (Go initialises them to -1 and canonicalises at the end). -/
structure ParseState where
  year : Nat := 0
  month : Option Nat := none
  day : Option Nat := none
deriving DecidableEq, Repr

/-- Four ASCII digits from the front of the input (the "2006" layout element:
Go requires the first four bytes to be digits and atoi rejects the rest). -/
def take4Digits : List Char → Option (Nat × List Char)
  | c1 :: c2 :: c3 :: c4 :: rest =>
    if isDigitChar c1 && isDigitChar c2 && isDigitChar c3 && isDigitChar c4 then
      some (((digitVal c1 * 10 + digitVal c2) * 10 + digitVal c3) * 10 + digitVal c4, rest)
    else none
  | _ => none

/-- Chunk-by-chunk parsing loop of Go time.parse.  Numeric months are
range-checked inline (Go sets rangeErrString for month outside 1..12); days
are range-checked after the loop.  Leftover input is an error. -/
def runChunks : List Chunk → List Char → ParseState → Option ParseState
  | [], v, st => if v.isEmpty then some st else none
  | Chunk.lit c :: rest, v, st =>
    match v with
    | [] => none
    | c₂ :: v₂ => if c₂ == c then runChunks rest v₂ st else none
  | Chunk.longYear :: rest, v, st =>
    match take4Digits v with
    | some (y, v₂) => runChunks rest v₂ { st with year := y }
    | none => none
  | Chunk.numMonth :: rest, v, st =>
    match getnum false v with
    | some (m, v₂) =>
      if decide (1 ≤ m ∧ m ≤ 12) then runChunks rest v₂ { st with month := some m } else none
    | none => none
  | Chunk.zeroMonth :: rest, v, st =>
    match getnum true v with
    | some (m, v₂) =>
      if decide (1 ≤ m ∧ m ≤ 12) then runChunks rest v₂ { st with month := some m } else none
    | none => none
  | Chunk.numDay :: rest, v, st =>
    match getnum false v with
    | some (d, v₂) => runChunks rest v₂ { st with day := some d }
    | none => none
  | Chunk.zeroDay :: rest, v, st =>
    match getnum true v with
    | some (d, v₂) => runChunks rest v₂ { st with day := some d }
    | none => none
  | Chunk.monthName :: rest, v, st =>
    match lookupName shortMonthNames v with
    | some (i, v₂) => runChunks rest v₂ { st with month := some (i + 1) }
    | none => none
  | Chunk.longMonthName :: rest, v, st =>
    match lookupName longMonthNames v with
    | some (i, v₂) => runChunks rest v₂ { st with month := some (i + 1) }
    | none => none

/-- Gregorian leap-year rule (Go time.isLeap). -/
def isLeapYear (y : Nat) : Bool := y % 4 == 0 && (y % 100 != 0 || y % 400 == 0)

/-- Days in a month (Go time.daysIn). -/
def daysIn (m y : Nat) : Nat :=
  if m == 2 then (if isLeapYear y then 29 else 28)
  else if m == 4 || m == 6 || m == 9 || m == 11 then 30
  else 31

/-- Model of Go time.Parse(layout, value) for the layouts this program uses:
scan the layout into chunks, run them over the value, then canonicalise
(month defaults to January, day to 1) and validate the day of the month. -/
def timeParse (layout value : String) : Option GoDate :=
  match runChunks (scanLayout layout.data) value.data {} with
  | none => none
  | some st =>
    let m := st.month.getD 1
    let d := st.day.getD 1
    if decide (1 ≤ d ∧ d ≤ daysIn m st.year) then some ⟨st.year, m, d⟩ else none

/-- The ordered list of date layouts tried by parseDate, verbatim from
handlers.go. -/
def dateFormats : List String :=
  ["2006-01-02",
   "01/02/2006",
   "1/2/2006",
   "02/01/2006",
   "2/1/2006",
   "2006/01/02",
   "2006/1/2",
   "Jan 2, 2006",
   "January 2, 2006",
   "2 Jan 2006",
   "2006-1-2",
   "Jan 2 2006",
   "January 2 2006",
   "Feb 2 2006",
   "Feb 20 2006",
   "March 2 2006",
   "Apr 2 2006",
   "May 2 2006",
   "Jun 2 2006",
   "Jul 2 2006",
   "Aug 2 2006",
   "Sep 2 2006",
   "Oct 2 2006",
   "Nov 2 2006",
   "Dec 2 2006"]

/-- Loop body of parseDate: try the layouts in order and return the first
successful parse. -/
def tryFormats : List String → String → Option GoDate
  | [], _ => none
  | f :: rest, s =>
    match timeParse f s with
    | some d => some d
    | none => tryFormats rest s

/-- Model of parseDate (handlers.go): empty strings fail with "date is
required"; otherwise the layouts are tried in order and if none succeeds the
result is the "unrecognized date format" error. -/
def parseDate (dateStr : String) : Except String GoDate :=
  if dateStr == "" then Except.error "date is required"
  else
    match tryFormats dateFormats dateStr with
    | some d => Except.ok d
    | none => Except.error "unrecognized date format"

/-- Model of strings.TrimSpace at the string level. -/
def goTrim (s : String) : String := ⟨trimList s.data⟩

/-- Fields supplied when creating a job application
(models.JobApplication as the caller fills it in). -/
structure JobInput where
  dateApplied : GoDate
  jobTitle : String
  company : String
  status : String
  jobURL : String
  notes : String
deriving DecidableEq, Repr

/-- A persisted row of the job_applications table.  id comes from
AUTOINCREMENT; createdAt is a logical clock standing for the created_at
timestamp (strictly increasing with insertion order). -/
structure StoredJob where
  id : Nat
  dateApplied : GoDate
  jobTitle : String
  company : String
  status : String
  jobURL : String
  notes : String
  createdAt : Nat
deriving DecidableEq, Repr

/-- The SQLite store: table rows in insertion order plus the AUTOINCREMENT
counter (ids start at 1) and the logical clock behind created_at. -/
structure Store where
  nextId : Nat := 1
  clock : Nat := 0
  rows : List StoredJob := []
deriving DecidableEq, Repr

/-- A freshly created database (empty job_applications table). -/
def emptyStore : Store := {}

/-- Model of DB.CreateJobApplication: INSERT the six caller-supplied columns,
then assign the AUTOINCREMENT id back to the record.  The model returns the
new store and the assigned id; the Exec/LastInsertId failure branches of the
source cannot arise in the model. -/
def CreateJobApplication (s : Store) (j : JobInput) : Store × Nat :=
  let row : StoredJob :=
    { id := s.nextId, dateApplied := j.dateApplied, jobTitle := j.jobTitle,
      company := j.company, status := j.status, jobURL := j.jobURL,
      notes := j.notes, createdAt := s.clock }
  ({ nextId := s.nextId + 1, clock := s.clock + 1, rows := s.rows ++ [row] }, s.nextId)

/-- Model of DB.GetJobApplication: SELECT ... WHERE id = ?, with the
sql.ErrNoRows case mapped to the (plain, non-sentinel) error string the
source creates. -/
def GetJobApplication (s : Store) (id : Nat) : Except String StoredJob :=
  match s.rows.find? (fun r => r.id == id) with
  | some r => Except.ok r
  | none => Except.error "job application not found"

/-- Failures of DB.DeleteJobApplication: the sentinel database.ErrJobNotFound,
or a wrapped driver error (fmt.Errorf with %w; never produced by the model
but kept so the two kinds are distinguishable, as errors.Is distinguishes
them in the source). -/
inductive DeleteError where
  | errJobNotFound
  | wrapped (msg : String)
deriving DecidableEq, Repr

/-- Model of DB.DeleteJobApplication: DELETE ... WHERE id = ?, then report the
sentinel not-found error when no row was affected. -/
def DeleteJobApplication (s : Store) (id : Nat) : Store × Option DeleteError :=
  let remaining := s.rows.filter (fun r => !(r.id == id))
  let s₂ := { s with rows := remaining }
  if s.rows.length - remaining.length == 0 then (s₂, some DeleteError.errJobNotFound)
  else (s₂, none)

/-- Sort key of ORDER BY date_applied DESC, created_at DESC: the date
components followed by the creation clock. -/
def sortKey (j : StoredJob) : Nat × Nat × Nat × Nat :=
  (j.dateApplied.year, j.dateApplied.month, j.dateApplied.day, j.createdAt)

/-- Lexicographic less-or-equal on quadruples of naturals. -/
def lex4LE : Nat × Nat × Nat × Nat → Nat × Nat × Nat × Nat → Bool
  | (a1, a2, a3, a4), (b1, b2, b3, b4) =>
    decide (a1 < b1) || (a1 == b1 && (decide (a2 < b2) || (a2 == b2 &&
      (decide (a3 < b3) || (a3 == b3 && decide (a4 ≤ b4))))))

/-- Output order of the two listing queries: a may appear no later than b
exactly when a's (date, created_at) key is lexicographically no smaller
(ORDER BY date_applied DESC, created_at DESC). -/
def rowBefore (a b : StoredJob) : Prop := lex4LE (sortKey b) (sortKey a) = true

instance : DecidableRel rowBefore := fun a b =>
  inferInstanceAs (Decidable (lex4LE (sortKey b) (sortKey a) = true))

/-- Model of DB.GetJobApplicationsByStatus: WHERE status = ? with the ORDER BY
above (the SQL sort realised as an insertion sort over the kept rows). -/
def GetJobApplicationsByStatus (s : Store) (status : String) : List StoredJob :=
  List.insertionSort rowBefore (s.rows.filter (fun j => j.status == status))

/-- Model of DB.GetStatusCounts: GROUP BY status with COUNT(*), returned as an
association list with one entry per status present (the Go map). -/
def GetStatusCounts (s : Store) : List (String × Nat) :=
  (s.rows.map StoredJob.status).dedup.map
    (fun st => (st, (s.rows.filter (fun j => j.status == st)).length))

/-- The header keywords of isHeaderRow, verbatim from handlers.go. -/
def headerKeywords : List String := ["date", "job", "title", "company", "position", "role"]

/-- Model of isHeaderRow: lower-case and trim the first column, then look for
any of the keywords as a substring. -/
def isHeaderRow (record : List String) : Bool :=
  match record with
  | [] => false
  | c :: _ =>
    let firstCol := lowerList (trimList c.data)
    headerKeywords.any (fun kw => containsList firstCol kw.data)

/-- Model of parseCSVRecord: at least 3 columns; trimmed date parsed by
parseDate; trimmed title and company non-empty; status defaults to "Applied"
unless column 4 is present and non-empty after trimming; optional URL and
notes columns.  The source assigns the default status first and overwrites
it when column 4 is non-empty; the conditional here is the same function. -/
def parseCSVRecord (record : List String) : Except String JobInput :=
  if record.length < 3 then
    Except.error "insufficient columns (need at least: date_applied, job_title, company)"
  else
    let dateStr := goTrim (record.getD 0 "")
    match parseDate dateStr with
    | Except.error e =>
      Except.error ("invalid date format '" ++ dateStr ++ "': " ++ e)
    | Except.ok dateApplied =>
      let jobTitle := goTrim (record.getD 1 "")
      if jobTitle == "" then Except.error "job title is required"
      else
        let company := goTrim (record.getD 2 "")
        if company == "" then Except.error "company is required"
        else
          let status₀ := goTrim (record.getD 3 "")
          let status := if record.length > 3 && status₀ != "" then status₀ else "Applied"
          let jobURL := if record.length > 4 then goTrim (record.getD 4 "") else ""
          let notes := if record.length > 5 then goTrim (record.getD 5 "") else ""
          Except.ok ⟨dateApplied, jobTitle, company, status, jobURL, notes⟩

/-- The empty-row test of ProcessCSVHandler: no fields, or a single field that
is empty after trimming. -/
def isEmptyRow (record : List String) : Bool :=
  record.length == 0 || (record.length == 1 && goTrim (record.getD 0 "") == "")

/-- The per-row error message of ProcessCSVHandler: fmt.Sprintf("Row %d: %v",
i+1, err) for the 0-based file index i. -/
def mkRowMsg (i : Nat) (e : String) : String :=
  "Row " ++ toString (i + 1) ++ ": " ++ e

/-- The summary data ProcessCSVHandler renders into import_result.html. -/
structure CsvImportResult where
  successCount : Nat
  errorCount : Nat
  errors : List String
  totalRows : Nat
deriving DecidableEq, Repr

/-- The row loop of ProcessCSVHandler, started at file index i: skip empty
rows, accumulate an error message for rows parseCSVRecord rejects, insert and
count the rest.  The source's further error branch (a failing INSERT, "Failed
to save ...") cannot arise in the model, where inserts always succeed. -/
def processRowsAux (db : Store) : List (List String) → Nat → Store × Nat × Nat × List String
  | [], _ => (db, 0, 0, [])
  | record :: rest, i =>
    if isEmptyRow record then processRowsAux db rest (i + 1)
    else
      match parseCSVRecord record with
      | Except.error e =>
        let r := processRowsAux db rest (i + 1)
        (r.1, r.2.1, r.2.2.1 + 1, mkRowMsg i e :: r.2.2.2)
      | Except.ok job =>
        let db₂ := (CreateJobApplication db job).1
        let r := processRowsAux db₂ rest (i + 1)
        (r.1, r.2.1 + 1, r.2.2.1, r.2.2.2)

/-- The start index of the row loop: 1 when the first row is detected as a
header (so it is skipped), else 0. -/
def startIdx (records : List (List String)) : Nat :=
  if isHeaderRow (records.headD []) then 1 else 0

/-- The data rows of the file: every record from the start index on. -/
def dataRows (records : List (List String)) : List (List String) :=
  records.drop (startIdx records)

/-- Per-record stage of ProcessCSVHandler — the code after reader.ReadAll has
succeeded: reject an empty record list, drop a detected header row, run the
row loop, and report the summary (TotalRows counts the data rows, header
excluded).  Record lists that reach this stage all carry the first record's
field count; see csvReadAll and ProcessCSVHandler below. -/
def ProcessCSV (db : Store) (records : List (List String)) :
    Except String (Store × CsvImportResult) :=
  if records.length == 0 then Except.error "CSV file is empty"
  else
    let r := processRowsAux db (dataRows records) (startIdx records)
    Except.ok (r.1, ⟨r.2.1, r.2.2.1, r.2.2.2, records.length - startIdx records⟩)

/-- The field-count check of encoding/csv with the reader's default
FieldsPerRecord: after the first record fixes the expected count n, return
the line of the first later record with a different count (Go counts the
first record as line 1; record ordinals stand for line numbers here, which
is exact for files without blank lines or multi-line quoted fields). -/
def csvCheckFields (n : Nat) (line : Nat) : List (List String) → Option Nat
  | [] => none
  | r :: rest => if r.length == n then csvCheckFields n (line + 1) rest else some line

/-- Model of reader.ReadAll for the handler's csv.NewReader(file) with all
defaults: the input is the field tuples of the non-blank lines (the reader
itself never yields a zero-field record), and a record whose field count
differs from the first record's fails the whole read with the
wrong-number-of-fields parse error (ErrFieldCount). -/
def csvReadAll (rows : List (List String)) : Except String (List (List String)) :=
  match rows with
  | [] => Except.ok []
  | first :: rest =>
    match csvCheckFields first.length 2 rest with
    | none => Except.ok (first :: rest)
    | some line =>
      Except.error ("record on line " ++ toString line ++ ": wrong number of fields")

/-- Model of ProcessCSVHandler from the point where the uploaded file is
lexed into per-line field tuples: a ReadAll failure aborts the whole import
with the 400 "Failed to parse CSV file" response before any row is examined;
otherwise the per-record stage runs. -/
def ProcessCSVHandler (db : Store) (rows : List (List String)) :
    Except String (Store × CsvImportResult) :=
  match csvReadAll rows with
  | Except.error _ => Except.error "Failed to parse CSV file"
  | Except.ok records => ProcessCSV db records

/-- The form fields CreateJobHandler reads from the create-job POST. -/
structure CreateForm where
  dateApplied : String
  jobTitle : String
  company : String
  status : String
  jobURL : String
  notes : String
deriving DecidableEq, Repr

/-- Model of CreateJobHandler past form decoding: parse date_applied with the
single layout "2006-01-02" (failure is the 400 "Invalid date format"
response), then insert the remaining form values verbatim. -/
def CreateJobHandler (s : Store) (f : CreateForm) : Except String Store :=
  match timeParse "2006-01-02" f.dateApplied with
  | none => Except.error "Invalid date format"
  | some d =>
    Except.ok (CreateJobApplication s ⟨d, f.jobTitle, f.company, f.status, f.jobURL, f.notes⟩).1

/-- Pair each list element with its index, counting from i. -/
def withIndex (i : Nat) : List α → List (Nat × α)
  | [] => []
  | x :: xs => (i, x) :: withIndex (i + 1) xs

/-- Specification of the error report of the row loop: one message per
non-empty rejected row, in file order, carrying the row's 1-based file
position and the rejection reason. -/
def rowErrorMsgs (startIdx : Nat) (rows : List (List String)) : List String :=
  (withIndex startIdx rows).filterMap (fun p =>
    if isEmptyRow p.2 then none
    else
      match parseCSVRecord p.2 with
      | Except.error e => some (mkRowMsg p.1 e)
      | Except.ok _ => none)

/-- A data row that the import stores: not skipped as empty, and accepted by
parseCSVRecord. -/
def isGoodRow (record : List String) : Bool :=
  !isEmptyRow record && (parseCSVRecord record).toOption.isSome

/-- A data row that the import rejects with a message: not skipped as empty,
and refused by parseCSVRecord. -/
def isBadRow (record : List String) : Bool :=
  !isEmptyRow record && !(parseCSVRecord record).toOption.isSome

/-! ### Lemmas about the character and substring primitives -/

theorem isSpaceChar_lowerChar (c : Char) : isSpaceChar (lowerChar c) = isSpaceChar c := by
  unfold lowerChar
  split <;> rfl

theorem containsList_iff (hay needle : List Char) :
    containsList hay needle = true ↔ needle <:+: hay := by
  induction hay with
  | nil =>
    simp [containsList, List.isEmpty_iff, List.infix_nil]
  | cons c t ih =>
    simp [containsList, List.infix_cons_iff, ih, List.isPrefixOf_iff_prefix]

theorem trimList_lowerList (x : List Char) :
    trimList (lowerList x) = lowerList (trimList x) := by
  have hcomp : (isSpaceChar ∘ lowerChar) = isSpaceChar := funext isSpaceChar_lowerChar
  unfold trimList lowerList
  rw [List.dropWhile_map, hcomp, ← List.map_reverse, List.dropWhile_map, hcomp,
    ← List.map_reverse]

theorem trim_decomp (x : List Char) :
    ∃ w₁ w₂, x = w₁ ++ trimList x ++ w₂ ∧
      (∀ c ∈ w₁, isSpaceChar c = true) ∧ (∀ c ∈ w₂, isSpaceChar c = true) := by
  refine ⟨x.takeWhile isSpaceChar,
    ((x.dropWhile isSpaceChar).reverse.takeWhile isSpaceChar).reverse, ?_, ?_, ?_⟩
  · conv_lhs => rw [← List.takeWhile_append_dropWhile (p := isSpaceChar) (l := x)]
    rw [List.append_assoc]
    congr 1
    conv_lhs => rw [← List.reverse_reverse (x.dropWhile isSpaceChar),
      ← List.takeWhile_append_dropWhile (p := isSpaceChar)
        (l := (x.dropWhile isSpaceChar).reverse)]
    rw [List.reverse_append, trimList]
  · exact fun c hc => List.mem_takeWhile_imp hc
  · intro c hc
    rw [List.mem_reverse] at hc
    exact List.mem_takeWhile_imp hc

theorem infix_strip_left {needle t : List Char} :
    ∀ {w : List Char}, needle <:+: w ++ t → (∀ c ∈ w, isSpaceChar c = true) →
      needle ≠ [] → (∀ c ∈ needle, isSpaceChar c = false) → needle <:+: t
  | [], h, _, _, _ => by simpa using h
  | c :: w, h, hw, hne, hns => by
    rcases List.infix_cons_iff.mp h with hpre | hinf
    · rcases List.prefix_cons_iff.mp hpre with rfl | ⟨ts, rfl, _⟩
      · exact absurd rfl hne
      · have h1 : isSpaceChar c = true := hw c (by simp)
        have h2 : isSpaceChar c = false := hns c (by simp)
        rw [h1] at h2
        cases h2
    · exact infix_strip_left hinf (fun d hd => hw d (by simp [hd])) hne hns

theorem infix_strip_right {needle t w : List Char}
    (h : needle <:+: t ++ w) (hw : ∀ c ∈ w, isSpaceChar c = true)
    (hne : needle ≠ []) (hns : ∀ c ∈ needle, isSpaceChar c = false) : needle <:+: t := by
  rw [← List.reverse_infix] at h ⊢
  rw [List.reverse_append] at h
  exact infix_strip_left h (fun c hc => hw c (List.mem_reverse.mp hc))
    (by simpa using hne) (fun c hc => hns c (List.mem_reverse.mp hc))

theorem infix_trim_iff {needle : List Char} (x : List Char)
    (hne : needle ≠ []) (hns : ∀ c ∈ needle, isSpaceChar c = false) :
    needle <:+: trimList x ↔ needle <:+: x := by
  obtain ⟨w₁, w₂, hx, hw₁, hw₂⟩ := trim_decomp x
  constructor
  · intro h
    have htrim : trimList x <:+: x := ⟨w₁, w₂, hx.symm⟩
    exact h.trans htrim
  · intro h
    rw [hx, List.append_assoc] at h
    exact infix_strip_right (infix_strip_left h hw₁ hne hns) hw₂ hne hns

theorem containsList_lower_trim (kw : String) (x : List Char)
    (hne : kw.data ≠ []) (hns : ∀ c ∈ kw.data, isSpaceChar c = false) :
    containsList (lowerList (trimList x)) kw.data = true ↔ kw.data <:+: lowerList x := by
  rw [containsList_iff, ← trimList_lowerList]
  exact infix_trim_iff (lowerList x) hne hns

/-! ### Lemmas about the sort order of the listing queries -/

theorem lex4LE_iff (a b : Nat × Nat × Nat × Nat) :
    lex4LE a b = true ↔
      a.1 < b.1 ∨ (a.1 = b.1 ∧ (a.2.1 < b.2.1 ∨ (a.2.1 = b.2.1 ∧
        (a.2.2.1 < b.2.2.1 ∨ (a.2.2.1 = b.2.2.1 ∧ a.2.2.2 ≤ b.2.2.2))))) := by
  obtain ⟨a1, a2, a3, a4⟩ := a
  obtain ⟨b1, b2, b3, b4⟩ := b
  simp [lex4LE]

theorem lex4LE_total (a b : Nat × Nat × Nat × Nat) :
    lex4LE a b = true ∨ lex4LE b a = true := by
  rw [lex4LE_iff, lex4LE_iff]
  omega

theorem lex4LE_trans {a b c : Nat × Nat × Nat × Nat}
    (h₁ : lex4LE a b = true) (h₂ : lex4LE b c = true) : lex4LE a c = true := by
  rw [lex4LE_iff] at h₁ h₂ ⊢
  omega

instance : IsTotal StoredJob rowBefore :=
  ⟨fun a b => (lex4LE_total (sortKey b) (sortKey a)).imp id id⟩

instance : IsTrans StoredJob rowBefore :=
  ⟨fun _ _ _ h₁ h₂ => lex4LE_trans h₂ h₁⟩

/-! ### Lemmas about the date-format loop and the CSV row loop -/

theorem tryFormats_eq_findSome? (fs : List String) (s : String) :
    tryFormats fs s = fs.findSome? (fun f => timeParse f s) := by
  induction fs with
  | nil => rfl
  | cons f rest ih =>
    rw [tryFormats, List.findSome?_cons]
    cases timeParse f s <;> simp [ih]

theorem rowErrorMsgs_nil (i : Nat) : rowErrorMsgs i [] = [] := rfl

theorem rowErrorMsgs_cons (i : Nat) (record : List String) (rest : List (List String)) :
    rowErrorMsgs i (record :: rest) =
      (if isEmptyRow record then []
       else
         match parseCSVRecord record with
         | Except.error e => [mkRowMsg i e]
         | Except.ok _ => []) ++ rowErrorMsgs (i + 1) rest := by
  rw [rowErrorMsgs, withIndex, List.filterMap_cons, rowErrorMsgs]
  by_cases hemp : isEmptyRow record
  · simp [hemp]
  · cases hp : parseCSVRecord record <;> simp [hemp, hp]

theorem rowErrorMsgs_length (i : Nat) (rows : List (List String)) :
    (rowErrorMsgs i rows).length = rows.countP isBadRow := by
  induction rows generalizing i with
  | nil => rfl
  | cons record rest ih =>
    rw [rowErrorMsgs_cons, List.countP_cons]
    by_cases hemp : isEmptyRow record
    · simp [hemp, isBadRow, ih]
    · cases hp : parseCSVRecord record <;>
        simp [hemp, hp, isBadRow, ih, Except.toOption]

theorem processRowsAux_spec (rows : List (List String)) :
    ∀ (db : Store) (i : Nat),
      (processRowsAux db rows i).2.2.2 = rowErrorMsgs i rows ∧
      (processRowsAux db rows i).2.1 = rows.countP isGoodRow ∧
      (processRowsAux db rows i).2.2.1 = rows.countP isBadRow ∧
      (processRowsAux db rows i).1.rows.length = db.rows.length + rows.countP isGoodRow := by
  induction rows with
  | nil =>
    intro db i
    simp [processRowsAux, rowErrorMsgs_nil]
  | cons record rest ih =>
    intro db i
    by_cases hemp : isEmptyRow record
    · obtain ⟨h1, h2, h3, h4⟩ := ih db (i + 1)
      rw [processRowsAux, if_pos hemp]
      refine ⟨?_, ?_, ?_, ?_⟩ <;>
        simp [rowErrorMsgs_cons, List.countP_cons, hemp, isGoodRow, isBadRow, h1, h2, h3, h4]
    · cases hp : parseCSVRecord record with
      | error e =>
        obtain ⟨h1, h2, h3, h4⟩ := ih db (i + 1)
        rw [processRowsAux, if_neg hemp]
        refine ⟨?_, ?_, ?_, ?_⟩ <;>
          simp [rowErrorMsgs_cons, List.countP_cons, hemp, hp, isGoodRow, isBadRow,
            Except.toOption, h1, h2, h3, h4]
      | ok job =>
        obtain ⟨h1, h2, h3, h4⟩ := ih (CreateJobApplication db job).1 (i + 1)
        rw [processRowsAux, if_neg hemp]
        have hlen : (CreateJobApplication db job).1.rows.length = db.rows.length + 1 := by
          simp [CreateJobApplication]
        refine ⟨?_, ?_, ?_, ?_⟩
        · simp [rowErrorMsgs_cons, hemp, hp, h1]
        · simp [List.countP_cons, hemp, hp, isGoodRow, Except.toOption, h2]
        · simp [List.countP_cons, hemp, hp, isBadRow, Except.toOption, h3]
        · simp only [List.countP_cons]
          simp only [isGoodRow, hemp, hp, Except.toOption]
          simp only [h4, hlen]
          simp
          omega

theorem lookup_map_pair (f : String → Nat) (l : List String) (st : String) :
    (l.map (fun x => (x, f x))).lookup st = if st ∈ l then some (f st) else none := by
  induction l with
  | nil => rfl
  | cons a t ih =>
    rw [List.map_cons, List.lookup_cons]
    by_cases h : st = a
    · subst h
      simp
    · have hbeq : (st == a) = false := beq_eq_false_iff_ne.mpr h
      simp [hbeq, ih, h]

theorem csvCheckFields_none {n line : Nat} {rs : List (List String)} :
    csvCheckFields n line rs = none ↔ ∀ r ∈ rs, r.length = n := by
  induction rs generalizing line with
  | nil => simp [csvCheckFields]
  | cons r rest ih =>
    rw [csvCheckFields]
    by_cases h : (r.length == n) = true
    · rw [if_pos h]
      simp [ih, List.forall_mem_cons, beq_iff_eq.mp h]
    · rw [if_neg h]
      simp only [List.forall_mem_cons]
      constructor
      · intro habs
        cases habs
      · intro hc
        exact absurd (beq_iff_eq.mpr hc.1) h

theorem csvReadAll_ok {rows records : List (List String)}
    (h : csvReadAll rows = Except.ok records) :
    records = rows ∧ ∀ r ∈ rows, r.length = (rows.headD []).length := by
  cases rows with
  | nil =>
    rw [csvReadAll, Except.ok.injEq] at h
    exact ⟨h.symm, by simp⟩
  | cons first rest =>
    rw [csvReadAll] at h
    cases hc : csvCheckFields first.length 2 rest with
    | none =>
      rw [hc, Except.ok.injEq] at h
      subst h
      refine ⟨rfl, ?_⟩
      intro r hr
      rcases List.mem_cons.mp hr with rfl | hr₂
      · rfl
      · exact csvCheckFields_none.mp hc r hr₂
    | some line =>
      rw [hc] at h
      simp at h

theorem processCSVHandler_mixed_abort (db : Store) (rows : List (List String))
    (bad : List String) (hmem : bad ∈ rows.tail)
    (hbad : bad.length ≠ (rows.headD []).length) :
    ProcessCSVHandler db rows = Except.error "Failed to parse CSV file" := by
  cases rows with
  | nil => cases hmem
  | cons first rest =>
    obtain ⟨line, hline⟩ : ∃ line, csvCheckFields first.length 2 rest = some line := by
      cases hcc : csvCheckFields first.length 2 rest with
      | none => exact absurd (csvCheckFields_none.mp hcc bad hmem) hbad
      | some line => exact ⟨line, rfl⟩
    rw [ProcessCSVHandler, csvReadAll, hline]

theorem processCSV_ok_spec (db : Store) (records : List (List String))
    (db₂ : Store) (res : CsvImportResult)
    (h : ProcessCSV db records = Except.ok (db₂, res)) :
    res.errors = rowErrorMsgs (startIdx records) (dataRows records) ∧
    res.errorCount = res.errors.length ∧
    res.errorCount = (dataRows records).countP isBadRow ∧
    res.successCount = (dataRows records).countP isGoodRow ∧
    db₂.rows.length = db.rows.length + res.successCount := by
  simp only [ProcessCSV] at h
  split at h
  · simp at h
  · rw [Except.ok.injEq, Prod.ext_iff] at h
    obtain ⟨hdb, hres⟩ := h
    subst hdb
    subst hres
    obtain ⟨h1, h2, h3, h4⟩ := processRowsAux_spec (dataRows records) db (startIdx records)
    refine ⟨h1, ?_, h3, h2, ?_⟩
    · rw [h1, rowErrorMsgs_length, h3]
    · rw [h4, h2]

/-! ### The claims -/

/-- C5: creating a job application and then fetching by the identifier
assigned at creation returns a record carrying exactly the application date,
job title, company, status, URL, and notes supplied at creation.  Stated for
any store whose row ids are below the AUTOINCREMENT counter — an invariant
every store reachable from the empty store satisfies. -/
theorem c5_create_then_fetch_roundtrip (s : Store) (j : JobInput)
    (hwf : ∀ r ∈ s.rows, r.id < s.nextId) :
    (GetJobApplication (CreateJobApplication s j).1 (CreateJobApplication s j).2).toOption.map
        (fun r => (r.dateApplied, r.jobTitle, r.company, r.status, r.jobURL, r.notes)) =
      some (j.dateApplied, j.jobTitle, j.company, j.status, j.jobURL, j.notes) := by
  have hnone : s.rows.find? (fun r => r.id == s.nextId) = none := by
    rw [List.find?_eq_none]
    intro r hr
    simp only [beq_iff_eq]
    exact Nat.ne_of_lt (hwf r hr)
  simp [GetJobApplication, CreateJobApplication, List.find?_append, hnone, List.find?,
    Except.toOption]

/-- Witness for C5 at the empty store and a concrete job. -/
theorem c5_witness :
    (GetJobApplication
        (CreateJobApplication emptyStore
          ⟨⟨2024, 1, 2⟩, "Engineer", "Acme", "Applied", "https://acme.example", "note"⟩).1
        (CreateJobApplication emptyStore
          ⟨⟨2024, 1, 2⟩, "Engineer", "Acme", "Applied", "https://acme.example", "note"⟩).2).toOption.map
        (fun r => (r.dateApplied, r.jobTitle, r.company, r.status, r.jobURL, r.notes)) =
      some (⟨2024, 1, 2⟩, "Engineer", "Acme", "Applied", "https://acme.example", "note") :=
  c5_create_then_fetch_roundtrip emptyStore
    ⟨⟨2024, 1, 2⟩, "Engineer", "Acme", "Applied", "https://acme.example", "note"⟩
    (by intro r hr; cases hr)

/-- C6: deleting an identifier no stored row carries reports the sentinel
not-found error, which is a different value from every wrapped driver
failure, and the store is left unchanged. -/
theorem c6_delete_nonexistent (s : Store) (id : Nat)
    (h : ∀ r ∈ s.rows, r.id ≠ id) :
    DeleteJobApplication s id = (s, some DeleteError.errJobNotFound) ∧
      ∀ msg, DeleteError.errJobNotFound ≠ DeleteError.wrapped msg := by
  have hfilter : s.rows.filter (fun r => !(r.id == id)) = s.rows := by
    rw [List.filter_eq_self]
    intro r hr
    simp [h r hr]
  constructor
  · simp [DeleteJobApplication, hfilter]
  · intro msg hcontra
    cases hcontra

/-- Witness for C6: deleting id 999 from a one-row store with id 1. -/
theorem c6_witness :
    DeleteJobApplication
        { nextId := 2, clock := 1,
          rows := [⟨1, ⟨2024, 1, 2⟩, "T", "C", "Applied", "", "", 0⟩] } 999 =
      ({ nextId := 2, clock := 1,
         rows := [⟨1, ⟨2024, 1, 2⟩, "T", "C", "Applied", "", "", 0⟩] },
       some DeleteError.errJobNotFound) :=
  (c6_delete_nonexistent
    { nextId := 2, clock := 1,
      rows := [⟨1, ⟨2024, 1, 2⟩, "T", "C", "Applied", "", "", 0⟩] } 999
    (by decide)).1

/-- C7: filtering by a status returns exactly the stored records with that
status (a permutation of the filtered table), sorted by the ORDER BY
relation, which is spelled out in the last conjunct: descending application
date with ties broken by descending creation order. -/
theorem c7_filter_by_status (s : Store) (status : String) :
    List.Perm (GetJobApplicationsByStatus s status)
      (s.rows.filter (fun j => j.status == status)) ∧
    List.Sorted rowBefore (GetJobApplicationsByStatus s status) ∧
    (∀ j ∈ GetJobApplicationsByStatus s status, j.status = status) ∧
    (∀ a b : StoredJob, rowBefore a b ↔
      (b.dateApplied.year < a.dateApplied.year ∨ (b.dateApplied.year = a.dateApplied.year ∧
        (b.dateApplied.month < a.dateApplied.month ∨ (b.dateApplied.month = a.dateApplied.month ∧
          (b.dateApplied.day < a.dateApplied.day ∨ (b.dateApplied.day = a.dateApplied.day ∧
            b.createdAt ≤ a.createdAt))))))) := by
  refine ⟨List.perm_insertionSort _ _, List.sorted_insertionSort _ _, ?_, ?_⟩
  · intro j hj
    rw [GetJobApplicationsByStatus, List.mem_insertionSort] at hj
    have hmem := List.mem_filter.mp hj
    exact beq_iff_eq.mp hmem.2
  · intro a b
    rw [rowBefore, lex4LE_iff]
    exact Iff.rfl

/-- C8: the status-count aggregation assigns to each status the number of
stored records carrying it (absent statuses read as 0 through the map), and
the counts sum to the total number of stored records. -/
theorem c8_status_counts_partition (s : Store) (st : String) :
    ((GetStatusCounts s).lookup st).getD 0 =
      (s.rows.filter (fun j => j.status == st)).length ∧
    ((GetStatusCounts s).map Prod.snd).sum = s.rows.length := by
  constructor
  · rw [GetStatusCounts, lookup_map_pair]
    by_cases h : st ∈ (s.rows.map StoredJob.status).dedup
    · rw [if_pos h, Option.getD_some]
    · rw [if_neg h, Option.getD_none, eq_comm, List.length_eq_zero, List.filter_eq_nil_iff]
      intro r hr hst
      rw [beq_iff_eq] at hst
      exact h (List.mem_dedup.mpr (List.mem_map.mpr ⟨r, hr, hst⟩))
  · have hmap : (GetStatusCounts s).map Prod.snd =
        (s.rows.map StoredJob.status).dedup.map
          (fun x => (s.rows.map StoredJob.status).count x) := by
      rw [GetStatusCounts, List.map_map]
      refine List.map_congr_left ?_
      intro x _
      simp only [Function.comp]
      rw [List.count_eq_countP, List.countP_map, ← List.countP_eq_length_filter]
      rfl
    rw [hmap, List.sum_map_count_dedup_eq_length, List.length_map]

/-- C1 (amended): for every non-empty input string, the CSV date parser
returns the parse of the first layout in the fixed ordered list dateFormats
that succeeds, and fails with the "unrecognized date format" error when no
layout in the list matches.  (On the empty string, which also matches no
layout, the parser instead fails earlier with "date is required"; see the
counterexample.) -/
theorem c1_parseDate_first_success (s : String) (h : s ≠ "") :
    (∀ d : GoDate, dateFormats.findSome? (fun f => timeParse f s) = some d →
        parseDate s = Except.ok d) ∧
    (dateFormats.findSome? (fun f => timeParse f s) = none →
        parseDate s = Except.error "unrecognized date format") := by
  have hbeq : (s == "") = false := beq_eq_false_iff_ne.mpr h
  constructor
  · intro d hd
    rw [parseDate, if_neg (by simp [hbeq]), tryFormats_eq_findSome?, hd]
  · intro hn
    rw [parseDate, if_neg (by simp [hbeq]), tryFormats_eq_findSome?, hn]

/-- C1 counterexample: the claim quantifies over every input string, but on
the empty string — which no layout in the list matches — parseDate fails
with "date is required", not with the "unrecognized format" error the claim
states. -/
theorem c1_empty_string_cex :
    parseDate "" = Except.error "date is required" ∧
    dateFormats.all (fun f => (timeParse f "").isNone) = true ∧
    ("date is required" : String) ≠ "unrecognized date format" :=
  ⟨rfl, by decide, by decide⟩

/-- Witness for C1 on a concrete US-format date, which the second layout in
the list is the first to match. -/
theorem c1_witness : parseDate "07/04/2020" = Except.ok ⟨2020, 7, 4⟩ :=
  (c1_parseDate_first_success "07/04/2020" (by decide)).1 ⟨2020, 7, 4⟩ (by decide)

/-- C2 (amended): a record whose field count differs from the first record's
makes ReadAll fail and the handler abort the entire import — the last
conjunct — reporting no per-row messages.  For every import whose records
ReadAll accepts (they then all carry the first record's field count, the
first conjunct), the reported errors are exactly one message per non-empty
data row that parseCSVRecord rejects — fewer than 3 columns, which under
uniformity only a uniformly narrow file can reach, or an empty date, title,
or company — carrying the row's 1-based file position (mkRowMsg i places
"Row i+1" before the reason) and the rejection reason, in row order; the
error count equals both the number of such rows and the length of the
message list; the success count counts every stored row of the whole file;
and exactly successCount records are added to the store.  A row of one
empty field (or none) is skipped without being reported. -/
theorem c2_import_reporting_and_abort (db : Store) (rows : List (List String))
    (db₂ : Store) (res : CsvImportResult)
    (h : ProcessCSVHandler db rows = Except.ok (db₂, res)) :
    (∀ r ∈ rows, r.length = (rows.headD []).length) ∧
    res.errors = rowErrorMsgs (startIdx rows) (dataRows rows) ∧
    res.errorCount = res.errors.length ∧
    res.errorCount = (dataRows rows).countP isBadRow ∧
    res.successCount = (dataRows rows).countP isGoodRow ∧
    db₂.rows.length = db.rows.length + res.successCount ∧
    (∀ (db' : Store) (rows' : List (List String)) (bad : List String),
        bad ∈ rows'.tail → bad.length ≠ (rows'.headD []).length →
        ProcessCSVHandler db' rows' = Except.error "Failed to parse CSV file") := by
  rw [ProcessCSVHandler] at h
  split at h
  · simp at h
  · rename_i records hra
    obtain ⟨heq, huni⟩ := csvReadAll_ok hra
    subst heq
    obtain ⟨h1, h2, h3, h4, h5⟩ := processCSV_ok_spec db records db₂ res h
    exact ⟨huni, h1, h2, h3, h4, h5, processCSVHandler_mixed_abort⟩

/-- C2 counterexample: in a 3-column file, a second row with only 2 columns —
exactly a "row with fewer than 3 columns" — is not rejected individually
with a row number and no summary is produced: ReadAll's field-count check
makes the whole import abort with the 400 "Failed to parse CSV file"
response. -/
theorem c2_mixed_field_count_cex :
    ProcessCSVHandler emptyStore [["2024-01-02", "T", "C"], ["2024-01-03", "X"]] =
      Except.error "Failed to parse CSV file" ∧
    (["2024-01-03", "X"] : List String).length < 3 :=
  ⟨rfl, by decide⟩

/-- Witness for C2 on a one-row file whose date is malformed. -/
theorem c2_witness :
    (⟨0, 1, ["Row 1: invalid date format 'bad': unrecognized date format"], 1⟩ :
        CsvImportResult).errors =
      rowErrorMsgs (startIdx [["bad", "T", "C"]]) (dataRows [["bad", "T", "C"]]) :=
  (c2_import_reporting_and_abort emptyStore [["bad", "T", "C"]] emptyStore
    ⟨0, 1, ["Row 1: invalid date format 'bad': unrecognized date format"], 1⟩ rfl).2.1

/-- C3: importing a 3-data-row file whose second row has a malformed date
yields 2 successes and 1 error, and the single error message names row 2. -/
theorem c3_three_rows_one_bad_date :
    (ProcessCSV emptyStore
        [["2024-01-02", "Engineer", "Acme"],
         ["not-a-date", "Dev", "Globex"],
         ["2024-03-04", "Tester", "Initech"]]).toOption.map Prod.snd =
      some ⟨2, 1, ["Row 2: invalid date format 'not-a-date': unrecognized date format"], 3⟩ :=
  rfl

/-- C4: a record is classified as a header row exactly when its first column
contains one of the six keywords under case-insensitive comparison (both
sides lower-cased; trimming, which the source also applies, cannot affect
containment of the space-free keywords); and concretely a first row with
"Company" in column 1 is skipped, contributing to neither the success count
nor the error count of the import. -/
theorem c4_header_row_detection :
    (∀ record : List String, isHeaderRow record = true ↔
        ∃ kw ∈ headerKeywords, lowerList kw.data <:+: lowerList (record.headD "").data) ∧
    (ProcessCSV emptyStore
        [["Company", "Job Title", "Date Applied"],
         ["2024-01-02", "Engineer", "Acme"]]).toOption.map Prod.snd =
      some ⟨1, 0, [], 1⟩ := by
  constructor
  · intro record
    have hk : ∀ kw ∈ headerKeywords, kw.data ≠ [] ∧
        (∀ c ∈ kw.data, isSpaceChar c = false) ∧ lowerList kw.data = kw.data := by decide
    cases record with
    | nil =>
      constructor
      · intro hfalse
        exact absurd hfalse (by decide)
      · intro hex
        exact absurd hex (by decide)
    | cons c rest =>
      simp only [isHeaderRow, List.any_eq_true]
      constructor
      · rintro ⟨kw, hkw, hcont⟩
        obtain ⟨hne, hns, hlow⟩ := hk kw hkw
        refine ⟨kw, hkw, ?_⟩
        rw [hlow]
        exact (containsList_lower_trim kw c.data hne hns).mp hcont
      · rintro ⟨kw, hkw, hinf⟩
        obtain ⟨hne, hns, hlow⟩ := hk kw hkw
        rw [hlow] at hinf
        exact ⟨kw, hkw, (containsList_lower_trim kw c.data hne hns).mpr hinf⟩
  · rfl

/-- C9 (amended): records created from a CSV row always carry a non-empty
title, company, and status, and the status defaults to "Applied" whenever
the status column is missing or empty after trimming; the create-form
handler, by contrast, validates only the date and stores the submitted
title, company, and status verbatim (so they may be empty — see the
counterexample). -/
theorem c9_creation_validation :
    (∀ (record : List String) (job : JobInput), parseCSVRecord record = Except.ok job →
      job.jobTitle ≠ "" ∧ job.company ≠ "" ∧ job.status ≠ "" ∧
      ((record.length ≤ 3 ∨ goTrim (record.getD 3 "") = "") → job.status = "Applied")) ∧
    (∀ (s : Store) (f : CreateForm) (st : Store), CreateJobHandler s f = Except.ok st →
      st.rows.map (fun r => (r.jobTitle, r.company, r.status)) =
        s.rows.map (fun r => (r.jobTitle, r.company, r.status)) ++
          [(f.jobTitle, f.company, f.status)]) := by
  constructor
  · intro record job h
    simp only [parseCSVRecord] at h
    split at h
    · simp at h
    · rename_i hlen
      split at h
      · simp at h
      · rename_i d hdate
        split at h
        · simp at h
        · rename_i htitle
          split at h
          · simp at h
          · rename_i hcompany
            rw [Except.ok.injEq] at h
            subst h
            have hfalse : ¬((false : Bool) = true) := by simp
            refine ⟨beq_eq_false_iff_ne.mp (Bool.of_not_eq_true htitle), ?_, ?_, ?_⟩
            · exact beq_eq_false_iff_ne.mp (Bool.of_not_eq_true hcompany)
            · by_cases hb :
                  (decide (record.length > 3) && (goTrim (record.getD 3 "") != "")) = true
              · show (if (decide (record.length > 3) && (goTrim (record.getD 3 "") != "")) = true
                    then goTrim (record.getD 3 "") else "Applied") ≠ ""
                rw [if_pos hb]
                rw [Bool.and_eq_true] at hb
                exact bne_iff_ne.mp hb.2
              · show (if (decide (record.length > 3) && (goTrim (record.getD 3 "") != "")) = true
                    then goTrim (record.getD 3 "") else "Applied") ≠ ""
                rw [if_neg hb]
                decide
            · intro hdef
              have hb : (decide (record.length > 3) && (goTrim (record.getD 3 "") != "")) = false := by
                rcases hdef with hle | hemp
                · have h1 : decide (record.length > 3) = false := by
                    rw [decide_eq_false_iff_not]
                    omega
                  rw [h1, Bool.false_and]
                · have h2 : (goTrim (record.getD 3 "") != "") = false := by
                    rw [hemp]
                    rfl
                  rw [h2, Bool.and_false]
              show (if (decide (record.length > 3) && (goTrim (record.getD 3 "") != "")) = true
                  then goTrim (record.getD 3 "") else "Applied") = "Applied"
              rw [hb, if_neg hfalse]
  · intro s f st h
    simp only [CreateJobHandler] at h
    split at h
    · simp at h
    · rw [Except.ok.injEq] at h
      subst h
      simp [CreateJobApplication]

/-- C9 counterexample: submitting the create form with a valid date but
empty title, company, and status stores a record whose title and company
are empty and whose status is the empty string, not "Applied". -/
theorem c9_form_verbatim_cex :
    (CreateJobHandler emptyStore ⟨"2024-01-02", "", "", "", "", ""⟩).toOption.map
        (fun st => st.rows.map (fun r => (r.jobTitle, r.company, r.status))) =
      some [("", "", "")] ∧
    ("" : String) ≠ "Applied" :=
  ⟨rfl, by decide⟩

/-- Witness for C9 on a concrete 3-column CSV record: the stored status
defaults to "Applied". -/
theorem c9_witness :
    JobInput.status ⟨⟨2024, 1, 2⟩, "Engineer", "Acme", "Applied", "", ""⟩ = "Applied" :=
  (c9_creation_validation.1 ["2024-01-02", "Engineer", "Acme"]
    ⟨⟨2024, 1, 2⟩, "Engineer", "Acme", "Applied", "", ""⟩ rfl).2.2.2
    (Or.inl (by decide))

/-- C10: empty data rows (no fields, or one field empty after trimming) are
skipped: the success count counts only non-empty accepted rows, the error
count only non-empty rejected rows — an empty row satisfies neither
predicate, as the last conjunct states — no record is stored for them (the
store grows by exactly successCount), while the reported total-row figure is
the length of the whole data-row list, empty rows included. -/
theorem c10_empty_rows_skipped (db : Store) (records : List (List String))
    (db₂ : Store) (res : CsvImportResult)
    (h : ProcessCSV db records = Except.ok (db₂, res)) :
    res.successCount = (dataRows records).countP isGoodRow ∧
    res.errorCount = (dataRows records).countP isBadRow ∧
    res.totalRows = (dataRows records).length ∧
    db₂.rows.length = db.rows.length + res.successCount ∧
    (∀ record : List String, isEmptyRow record = true →
      isGoodRow record = false ∧ isBadRow record = false) := by
  simp only [ProcessCSV] at h
  split at h
  · simp at h
  · rw [Except.ok.injEq, Prod.ext_iff] at h
    obtain ⟨hdb, hres⟩ := h
    subst hdb
    subst hres
    obtain ⟨h1, h2, h3, h4⟩ := processRowsAux_spec (dataRows records) db (startIdx records)
    refine ⟨h2, h3, ?_, ?_, ?_⟩
    · rw [dataRows, List.length_drop]
    · rw [h4, h2]
    · intro record hrec
      constructor
      · simp [isGoodRow, hrec]
      · simp [isBadRow, hrec]

/-- Witness for C10 on a file of one empty row and one bad row: the total-row
figure includes the empty row. -/
theorem c10_witness :
    (⟨0, 1, ["Row 2: invalid date format 'x': unrecognized date format"], 2⟩ :
        CsvImportResult).totalRows = (dataRows [[""], ["x", "", ""]]).length :=
  (c10_empty_rows_skipped emptyStore [[""], ["x", "", ""]] emptyStore
    ⟨0, 1, ["Row 2: invalid date format 'x': unrecognized date format"], 2⟩ rfl).2.2.1

end HunterSeeker

